import Mathlib

/-!
Verification development for the dataset-annotation orchestration core
(`sm/engine/dataset_manager.py`, `sm/engine/dataset.py`, `sm/engine/mol_db.py`).

The Python code is shallowly embedded:

* Python values that flow through configs, metadata and queue messages are
  modelled by the inductive type `PyVal` (scalars, lists and dicts); Python
  dict equality (`==`) is extensional and insensitive to key insertion order,
  which is modelled by the recursive boolean `pyEq`.  Python dicts cannot
  contain the same key twice, so dict values reached at run time always have
  nodup key lists; the predicate `WFPy` captures this.
* Numbers are modelled as exact rationals (`Rat`); the code under study only
  tests numbers for equality or applies `round`/`min` to values whose float
  computation is exact at every input used in a theorem.
* Fallible code returns `Except`; storage writes, search-index calls and
  queue publishes are modelled as an explicit effect trace.
-/

/-- A Python value: `None`, bool, number, string, list or dict.  Dicts are
insertion-ordered association lists, exactly as in CPython. -/
inductive PyVal : Type where
  | null : PyVal
  | bool (b : Bool) : PyVal
  | num (q : Rat) : PyVal
  | str (s : String) : PyVal
  | list (xs : List PyVal) : PyVal
  | dict (entries : List (String × PyVal)) : PyVal

/-- Entries of a Python dict, in insertion order. -/
abbrev PyDict := List (String × PyVal)

/-- Dict lookup: the value bound to `k`, scanning entries in order. -/
def pyLookup (k : String) : PyDict → Option PyVal
  | [] => Option.none
  | (k2, v) :: rest => if k == k2 then some v else pyLookup k rest

/-- Every key of `d2` also occurs as a key of `d1`. -/
def pyKeysIncl (d2 d1 : PyDict) : Bool :=
  d2.all (fun e => d1.any (fun e1 => e1.1 == e.1))

mutual
/-- Python `==` on values: structural on scalars and lists, extensional on
dicts (same key set, equal values), hence insensitive to dict key order. -/
def pyEq : PyVal → PyVal → Bool
  | .null, .null => true
  | .bool a, .bool b => a == b
  | .num a, .num b => a == b
  | .str a, .str b => a == b
  | .list xs, .list ys => pyEqList xs ys
  | .dict d1, .dict d2 => pyEqEntries d1 d2 && pyKeysIncl d2 d1
  | _, _ => false
termination_by a b => sizeOf a + sizeOf b

/-- Python `==` on lists: pointwise, same length. -/
def pyEqList : List PyVal → List PyVal → Bool
  | [], [] => true
  | x :: xs, y :: ys => pyEq x y && pyEqList xs ys
  | _, _ => false
termination_by a b => sizeOf a + sizeOf b

/-- Every entry `(k, v)` of `d1` is matched in `d2`: `d2` binds `k` to a
value Python-equal to `v`. -/
def pyEqEntries : PyDict → PyDict → Bool
  | [], _ => true
  | (k, v) :: rest, d2 => pyFindEq k v d2 && pyEqEntries rest d2
termination_by a b => sizeOf a + sizeOf b

/-- Scan `d` for key `k` and compare the bound value with `v`. -/
def pyFindEq : String → PyVal → PyDict → Bool
  | _, _, [] => false
  | k, v, (k2, v2) :: rest => if k == k2 then pyEq v v2 else pyFindEq k v rest
termination_by _ v d => sizeOf v + sizeOf d
end

/-- The keys of a dict are pairwise distinct (always true of Python dicts). -/
def keysNodup : PyDict → Bool
  | [] => true
  | e :: rest => !(rest.any (fun e2 => e2.1 == e.1)) && keysNodup rest

mutual
/-- Well-formedness of a value as produced by the Python runtime: every dict
reachable inside it has pairwise distinct keys. -/
def WFPy : PyVal → Bool
  | .list xs => WFList xs
  | .dict d => keysNodup d && WFEntries d
  | _ => true
termination_by v => sizeOf v

/-- All members of a list are well-formed. -/
def WFList : List PyVal → Bool
  | [] => true
  | x :: xs => WFPy x && WFList xs
termination_by xs => sizeOf xs

/-- All values of a dict are well-formed. -/
def WFEntries : PyDict → Bool
  | [] => true
  | (_, v) :: rest => WFPy v && WFEntries rest
termination_by d => sizeOf d
end

/-- Scalar (non-container) values; `==` on them is symmetric by cases. -/
def pyScalar : PyVal → Bool
  | .null | .bool _ | .num _ | .str _ => true
  | _ => false

/-- Python truthiness of a value. -/
def pyTruthy : PyVal → Bool
  | .null => false
  | .bool b => b
  | .num q => q != 0
  | .str s => s != ""
  | .list xs => !xs.isEmpty
  | .dict d => !d.isEmpty

/-- Removing key `k` from a dict, as `dict.pop(k, None)` leaves the receiver:
Python dicts hold a key at most once, so removing every entry with key `k`
agrees with `pop` on every dict the runtime can build. -/
def eraseKey (k : String) (d : PyDict) : PyDict :=
  d.filter (fun e => !(e.1 == k))

/-- Python `d[k] = v`: overwrite the binding in place when `k` is present
(keeping its position), append a new binding at the end otherwise. -/
def dictSet : PyDict → String → PyVal → PyDict
  | [], k, v => [(k, v)]
  | (k2, w) :: rest, k, v =>
    if k2 == k then (k, v) :: rest else (k2, w) :: dictSet rest k v

/-- Python `d.update(kvs)` applied entry by entry. -/
def dictUpdate (d : PyDict) (kvs : PyDict) : PyDict :=
  kvs.foldl (fun acc e => dictSet acc e.1 e.2) d

/-! ## ConfigDiff and `compare_configs` (dataset_manager.py lines 46-67) -/

/-- The three classification results of `ConfigDiff`. -/
inductive ConfigDiff : Type where
  | EQUAL : ConfigDiff
  | NEW_MOL_DB : ConfigDiff
  | INSTR_PARAMS_DIFF : ConfigDiff
deriving DecidableEq

/-- The dict key holding the molecular-database list of a config. -/
def databasesKey : String := "databases"

/-- The dict key holding a molecular database name. -/
def nameKey : String := "name"

/-- The dict key holding a molecular database version. -/
def versionKey : String := "version"

/-- The pair built for one `mol_db` entry by `mol_dbs_to_set`:
`(mol_db['name'], mol_db.get('version', None))`.  `None` when the entry is
not a dict (subscripting raises) or has no name key (KeyError). -/
def molDbPair (v : PyVal) : Option (PyVal × PyVal) :=
  match v with
  | .dict d =>
    match pyLookup nameKey d with
    | some n => some (n, (pyLookup versionKey d).getD .null)
    | Option.none => Option.none
  | _ => Option.none

/-- `mol_dbs_to_set`: the set of `(name, version)` pairs of a database list.
Python sets are modelled as lists compared up to `pyEq`-membership, which is
all the set difference below observes. -/
def mol_dbs_to_set (mol_dbs : List PyVal) : Option (List (PyVal × PyVal)) :=
  mol_dbs.mapM molDbPair

/-- Python tuple equality on `(name, version)` pairs. -/
def pyPairEq (p q : PyVal × PyVal) : Bool :=
  pyEq p.1 q.1 && pyEq p.2 q.2

/-- `len(new_mol_dbs - old_mol_dbs) > 0`: some member of the new set has no
Python-equal member in the old set. -/
def setDiffNonempty (newSet oldSet : List (PyVal × PyVal)) : Bool :=
  newSet.any (fun p => !(oldSet.any (fun q => pyPairEq p q)))

/-- `config.get('databases', [])` followed by iteration: absent key yields
the empty list; a non-list value cannot be iterated as a database list. -/
def getDatabases (c : PyDict) : Option (List PyVal) :=
  match pyLookup databasesKey c with
  | Option.none => some []
  | some (.list xs) => some xs
  | some _ => Option.none

/-- Tail of the classification shared by both branches of the algorithm:
compare the configs with the `databases` key stripped, then the
`(name, version)` sets of the two database lists. -/
def compare_configs_core (old new : PyDict) : Option ConfigDiff :=
  let old_rest := eraseKey databasesKey old
  let new_rest := eraseKey databasesKey new
  if !(pyEq (.dict old_rest) (.dict new_rest)) then some .INSTR_PARAMS_DIFF
  else
    match getDatabases old, getDatabases new with
    | some oldDbs, some newDbs =>
      match mol_dbs_to_set oldDbs, mol_dbs_to_set newDbs with
      | some old_mol_dbs, some new_mol_dbs =>
        some (if setDiffNonempty new_mol_dbs old_mol_dbs then .NEW_MOL_DB else .EQUAL)
      | _, _ => Option.none
    | _, _ => Option.none

/-- `ConfigDiff.compare_configs(old, new)`: `EQUAL` when the whole configs
are Python-equal, otherwise classify via the stripped remainders and the
database sets.  `None` models the run-time errors (KeyError / TypeError)
possible on malformed configs. -/
def compare_configs (old new : PyDict) : Option ConfigDiff :=
  if pyEq (.dict old) (.dict new) then some .EQUAL
  else compare_configs_core old new

/-- Modelled from the spec: "strip the `databases` key from both configs and
compare the remainder; if different, INSTR_PARAMS_DIFF.  Otherwise compare
the sets of `(name, version)` pairs from each `databases` list; if the new
set contains any pair absent from the old set, NEW_MOL_DB.  Otherwise
EQUAL."  Written independently of `compare_configs`, with no shortcut on
equal configs. -/
def classify_spec (old new : PyDict) : Option ConfigDiff :=
  let old_rest := eraseKey databasesKey old
  let new_rest := eraseKey databasesKey new
  if !(pyEq (.dict old_rest) (.dict new_rest)) then some .INSTR_PARAMS_DIFF
  else
    match getDatabases old, getDatabases new with
    | some oldDbs, some newDbs =>
      match mol_dbs_to_set oldDbs, mol_dbs_to_set newDbs with
      | some old_mol_dbs, some new_mol_dbs =>
        some (if setDiffNonempty new_mol_dbs old_mol_dbs then .NEW_MOL_DB else .EQUAL)
      | _, _ => Option.none
    | _, _ => Option.none

/-- Well-formedness of one entry of a `databases` list: a dict carrying a
scalar name and a scalar (or absent) version, as dataset configs do. -/
def molDbWF (v : PyVal) : Bool :=
  match v with
  | .dict d =>
    (match pyLookup nameKey d with
     | some n => pyScalar n
     | Option.none => false) &&
    pyScalar ((pyLookup versionKey d).getD .null)
  | _ => false

/-- Well-formedness of a config as the Python runtime builds it: nodup dict
keys throughout, and a `databases` key (when present) holding a list of
well-formed database entries. -/
def ConfigWF (c : PyDict) : Bool :=
  WFPy (.dict c) &&
  (match pyLookup databasesKey c with
   | Option.none => true
   | some (.list xs) => xs.all molDbWF
   | some _ => false)

/-! ## Optical image registration: the effective zoom (dataset_manager.py
lines 239-256) -/

/-- Python builtin `min` on two numbers: the first argument wins ties. -/
def pymin (a b : Rat) : Rat := if b < a then b else a

/-- Floor of a rational, via flooring integer division. -/
def ratFloor (q : Rat) : Int := q.num.fdiv q.den

/-- Python 3 `round` to an integer: nearest, ties to even. -/
def pyRound (q : Rat) : Int :=
  let f := ratFloor q
  let r := q - f
  if r < 1/2 then f
  else if r > 1/2 then f + 1
  else if f % 2 = 0 then f else f + 1

/-- A 3 by 3 projective transform, row major. -/
structure Mat3 where
  a00 : Rat
  a01 : Rat
  a02 : Rat
  a10 : Rat
  a11 : Rat
  a12 : Rat
  a20 : Rat
  a21 : Rat
  a22 : Rat

/-- Width of the reference viewport used to normalize zoom. -/
def VIEWPORT_WIDTH : Rat := 1000

/-- Height of the reference viewport used to normalize zoom. -/
def VIEWPORT_HEIGHT : Rat := 500

/-- Output of `_transform_scan`: the effective zoom, the canvas size handed
to the perspective warp, and the eight projective coefficients. -/
structure TransformedScan where
  eff_zoom : Int
  canvas_w : Int
  canvas_h : Int
  coeffs : List Rat

/-- `SMapiDatasetManager._transform_scan` on reconstructed-image dimensions
`(w, h)`: normalize the requested zoom against the 1000 by 500 viewport with
Python `round`, normalize the transform by its bottom-right entry, divide
its first two columns by the effective zoom and keep the first eight
coefficients; resample onto a canvas of `(w, h)` scaled by the effective
zoom.  Floats are modelled as exact rationals; when the effective zoom is 0
NumPy division yields infinities where rational division yields 0, so no
theorem below concerns `coeffs` at effective zoom 0. -/
def transform_scan (t : Mat3) (w h : Nat) (zoom : Rat) : TransformedScan :=
  let z : Int := pyRound (zoom * pymin (VIEWPORT_WIDTH / (w : Rat)) (VIEWPORT_HEIGHT / (h : Rat)))
  let n00 := t.a00 / t.a22
  let n01 := t.a01 / t.a22
  let n02 := t.a02 / t.a22
  let n10 := t.a10 / t.a22
  let n11 := t.a11 / t.a22
  let n12 := t.a12 / t.a22
  let n20 := t.a20 / t.a22
  let n21 := t.a21 / t.a22
  let zq : Rat := (z : Rat)
  { eff_zoom := z
    canvas_w := (w : Int) * z
    canvas_h := (h : Int) * z
    coeffs := [n00 / zq, n01 / zq, n02, n10 / zq, n11 / zq, n12, n20 / zq, n21 / zq] }

/-! ## Isotope peak table assembly (mol_db.py lines 136-162) -/

/-- One row of the theoretical peak table; `centr_mzs` and `centr_ints` are
the centroid arrays, never inspected numerically by the assembler. -/
structure PeakRow where
  sf_id : Nat
  adduct : String
  centr_mzs : List Rat
  centr_ints : List Rat
deriving DecidableEq

/-- Sort key of `sort_values(['sf_id', 'adduct'])`: lexicographic on
`(sf_id, adduct)`. -/
def rowLe (a b : PeakRow) : Bool :=
  a.sf_id < b.sf_id ||
    (a.sf_id == b.sf_id && (decide (a.adduct < b.adduct) || a.adduct == b.adduct))

/-- The `(formula_id, adduct)` pair of every row, in row order. -/
def pairsOf (l : List PeakRow) : List (Nat × String) :=
  l.map (fun r => (r.sf_id, r.adduct))

/-- Failure modes of `MolecularDB.sf_df`: an empty target query result, an
empty decoy query result, or the crash of the uniqueness check itself; the
intended consistency assertion (message `Not unique formula-adduct
combinations`) is unreachable because the check crashes first. -/
inductive MolDbError : Type where
  | noTargetPeaks : MolDbError
  | noDecoyPeaks : MolDbError
  | pdUniqueRaises : MolDbError
deriving DecidableEq

/-- `MolecularDB._check_formula_uniqueness`: the source computes
`pd.unique(sf_df[['sf_id', 'adduct']].values).shape[0]` and asserts it
equals the row count.  `.values` of the two-column frame is a 2-D object
ndarray, and `pd.unique` rejects 2-D input in every pandas version: older
pandas fails with a broadcast ValueError while packing the 2-D array into
a 1-D object array (the reason the usual idiom calls `.ravel()` first),
newer pandas fails on the 1-D hashtable buffer, and the row sub-arrays are
unhashable in any case.  The call therefore raises before any count is
computed; modelled as the unconditional error. -/
def check_formula_uniqueness (_df : List PeakRow) : Except MolDbError Unit :=
  .error .pdUniqueRaises

/-- `MolecularDB.sf_df` given the target and decoy query results: assert
both nonempty (in that order, as the target assert precedes the decoy
query), concatenate, sort by `(sf_id, adduct)`, then run the uniqueness
check — which raises, so the sorted table is never returned. -/
def sf_df (target decoy : List PeakRow) : Except MolDbError (List PeakRow) :=
  if target.isEmpty then .error .noTargetPeaks
  else if decoy.isEmpty then .error .noDecoyPeaks
  else
    let merged := (target ++ decoy).mergeSort rowLe
    match check_formula_uniqueness merged with
    | .error e => .error e
    | .ok _ => .ok merged

/-! ## Dataset record and status lifecycle (dataset.py) -/

namespace DatasetStatus

/-- Status string `NEW`. -/
def NEW : String := "NEW"

/-- Status string `QUEUED`. -/
def QUEUED : String := "QUEUED"

/-- Status string `STARTED`. -/
def STARTED : String := "STARTED"

/-- Status string `FINISHED`. -/
def FINISHED : String := "FINISHED"

/-- Status string `FAILED`. -/
def FAILED : String := "FAILED"

/-- Status string `INDEXING`. -/
def INDEXING : String := "INDEXING"

/-- Status string `DELETED`. -/
def DELETED : String := "DELETED"

end DatasetStatus

namespace DatasetAction

/-- Action string `ADD`. -/
def ADD : String := "ADD"

/-- Action string `UPDATE`. -/
def UPDATE : String := "UPDATE"

/-- Action string `DELETE`. -/
def DELETE : String := "DELETE"

end DatasetAction

namespace DatasetActionPriority

/-- Queue priority `LOW`. -/
def LOW : Nat := 0

/-- Queue priority `STANDARD`. -/
def STANDARD : Nat := 1

/-- Queue priority `HIGH`. -/
def HIGH : Nat := 2

/-- The default queue priority, an alias of `LOW`. -/
def DEFAULT : Nat := LOW

end DatasetActionPriority

/-- Run-time failures surfacing from the embedded code. -/
inductive SmError : Type where
  | DSIDExists : SmError
  | UnknownDSID : SmError
  | AssertionError : SmError
  | AttributeError : SmError
  | TypeError : SmError
deriving DecidableEq

/-- The `Dataset` model class.  Each field is `Option`-valued: `none` is
Python `None` (the `__init__` default for all fields except `status`, which
defaults to `NEW`, and `is_public`, which defaults to `True`). -/
structure Dataset where
  id : Option String := Option.none
  name : Option String := Option.none
  input_path : Option String := Option.none
  upload_dt : Option String := Option.none
  metadata : Option PyVal := Option.none
  config : Option PyDict := Option.none
  status : Option String := some DatasetStatus.NEW
  is_public : Option Bool := some true
  mol_dbs : Option (List String) := Option.none

/-- The dataset table: rows keyed by dataset id. -/
abbrev Storage := List (String × Dataset)

/-- `db.select_one(DS_SEL, id)`: the stored row for an id, `None` included. -/
def storageLookup (id : Option String) (st : Storage) : Option Dataset :=
  match id with
  | some i => List.lookup i st
  | Option.none => Option.none

/-- `Dataset.is_stored`. -/
def Dataset.is_stored (st : Storage) (ds : Dataset) : Bool :=
  (storageLookup ds.id st).isSome

/-- `Dataset.load`: the stored row with its id set, or UnknownDSID. -/
def Dataset.load (st : Storage) (ds_id : Option String) : Except SmError Dataset :=
  match storageLookup ds_id st with
  | some row => .ok { row with id := ds_id }
  | Option.none => .error .UnknownDSID

/-- Truthiness of an optional string (Python: `None` and `''` are falsy). -/
def optStrTruthy : Option String → Bool
  | some s => s != ""
  | Option.none => false

/-- Truthiness of an optional dict (Python: `None` and `{}` are falsy). -/
def optDictTruthy : Option PyDict → Bool
  | some d => !d.isEmpty
  | Option.none => false

/-- Truthiness of an optional list (Python: `None` and `[]` are falsy). -/
def optListTruthy : Option (List String) → Bool
  | some l => !l.isEmpty
  | Option.none => false

/-- The guard of the `assert` opening `Dataset.save` (dataset.py lines
83-84), field by field in source order: id, name, input_path, upload_dt,
config, status all truthy, `is_public is not None`, mol_dbs truthy.  The
`metadata` field does not appear in the assert. -/
def save_assert (ds : Dataset) : Bool :=
  optStrTruthy ds.id && optStrTruthy ds.name && optStrTruthy ds.input_path &&
  ds.upload_dt.isSome && optDictTruthy ds.config && optStrTruthy ds.status &&
  ds.is_public.isSome && optListTruthy ds.mol_dbs

/-- Observable side effects of the embedded code, in program order. -/
inductive Effect : Type where
  | dbWrite (isInsert : Bool) (ds_id : Option String) (status : Option String) : Effect
  | esSync (ds_id : Option String) : Effect
  | statusPublish (ds_id : Option String) (status : Option String) : Effect
  | queuePublish (msg : PyDict) (priority : Nat) : Effect

/-- `Dataset.save`: assert the required fields, insert or update the row,
sync the search index, and publish the status when a status queue is wired
in. -/
def Dataset.save (st : Storage) (hasStatusQueue : Bool) (ds : Dataset) :
    List Effect × Except SmError Unit :=
  if save_assert ds then
    ([.dbWrite (!ds.is_stored st) ds.id ds.status, .esSync ds.id] ++
       (if hasStatusQueue then [.statusPublish ds.id ds.status] else []),
     .ok ())
  else ([], .error .AssertionError)

/-- `Dataset.set_status`: mutate the status field and save. -/
def Dataset.set_status (st : Storage) (hasStatusQueue : Bool) (ds : Dataset)
    (status : String) : List Effect × Except SmError Dataset :=
  let ds2 := { ds with status := some status }
  match Dataset.save st hasStatusQueue ds2 with
  | (effs, .ok _) => (effs, .ok ds2)
  | (effs, .error e) => (effs, .error e)

/-- Message key `ds_id`. -/
def dsIdKey : String := "ds_id"

/-- Message key `ds_name`. -/
def dsNameKey : String := "ds_name"

/-- Message key `input_path`. -/
def inputPathKey : String := "input_path"

/-- Message key `user_email`. -/
def userEmailKey : String := "user_email"

/-- Message key `action`. -/
def actionKey : String := "action"

/-- Message and keyword key `del_first`. -/
def delFirstKey : String := "del_first"

/-- Keyword key `del_raw_data`. -/
def delRawDataKey : String := "del_raw_data"

/-- Metadata key `Submitted_By`. -/
def submittedByKey : String := "Submitted_By"

/-- Metadata key `Submitter`. -/
def submitterKey : String := "Submitter"

/-- Metadata key `Email`. -/
def emailKey : String := "Email"

/-- The dispatcher mode selecting deferred (queued) execution. -/
def queueMode : String := "queue"

/-- A `None`-or-string field embedded as a Python value. -/
def optStrVal : Option String → PyVal
  | some s => .str s
  | Option.none => .null

/-- Python `value.get(k, default)`: only dicts have `get`; anything else
raises AttributeError, modelled as `none`. -/
def pyGetDefault (v : PyVal) (k : String) (dflt : PyVal) : Option PyVal :=
  match v with
  | .dict d => some ((pyLookup k d).getD dflt)
  | _ => Option.none

/-- The submitter email extraction in `Dataset.to_queue_message`:
`metadata.get('Submitted_By', {}).get('Submitter', {}).get('Email', None)`,
lower-cased when truthy.  Outer `none` is a raised AttributeError; inner
`none` means no truthy email. -/
def extractEmail (meta : PyVal) : Option (Option String) := do
  let a ← pyGetDefault meta submittedByKey (.dict [])
  let b ← pyGetDefault a submitterKey (.dict [])
  let e ← pyGetDefault b emailKey .null
  if pyTruthy e then
    match e with
    | .str s => some (some s.toLower)
    | _ => Option.none
  else some Option.none

/-- `Dataset.to_queue_message`: the base message dict, with `user_email`
appended when the metadata carries a truthy submitter email. -/
def Dataset.to_queue_message (ds : Dataset) : Option PyDict := do
  let meta ← ds.metadata
  let base : PyDict :=
    [(dsIdKey, optStrVal ds.id), (dsNameKey, optStrVal ds.name),
     (inputPathKey, optStrVal ds.input_path)]
  let em ← extractEmail meta
  pure (match em with
        | some e => base ++ [(userEmailKey, .str e)]
        | Option.none => base)

/-- Construction-time configuration of `SMapiDatasetManager`: the dispatch
mode and whether a status queue was wired in. -/
structure MgrCtx where
  mode : String
  hasStatusQueue : Bool

namespace SMapi

/-- `SMapiDatasetManager._post_sm_msg`: set the status to QUEUED (a save),
and in queue mode build the queue message, add the action and the keyword
extras, and publish it at the given priority. -/
def post_sm_msg (ctx : MgrCtx) (st : Storage) (ds : Dataset) (action : String)
    (priority : Nat) (kwargs : PyDict) : List Effect × Except SmError Dataset :=
  match Dataset.set_status st ctx.hasStatusQueue ds DatasetStatus.QUEUED with
  | (effs, .error e) => (effs, .error e)
  | (effs, .ok ds2) =>
    if ctx.mode == queueMode then
      match ds2.to_queue_message with
      | Option.none => (effs, .error .AttributeError)
      | some msg =>
        let msg2 := dictUpdate (dictSet msg actionKey (.str action)) kwargs
        (effs ++ [.queuePublish msg2 priority], .ok ds2)
    else (effs, .ok ds2)

/-- `SMapiDatasetManager.add`: fail with DSIDExists when the id is already
stored and `del_first` is not set; otherwise post an ADD message carrying
`del_first`. -/
def add (ctx : MgrCtx) (st : Storage) (ds : Dataset) (del_first : Bool)
    (priority : Nat) : List Effect × Except SmError Dataset :=
  if !del_first && ds.is_stored st then ([], .error .DSIDExists)
  else post_sm_msg ctx st ds DatasetAction.ADD priority [(delFirstKey, .bool del_first)]

/-- `SMapiDatasetManager.delete`: post a DELETE message at priority HIGH.
The `del_raw_data` argument is accepted and never used. -/
def delete (ctx : MgrCtx) (st : Storage) (ds : Dataset) (_del_raw_data : Bool) :
    List Effect × Except SmError Dataset :=
  post_sm_msg ctx st ds DatasetAction.DELETE DatasetActionPriority.HIGH []

/-- Attribute lookup `ds.meta` performed by `SMapiDatasetManager.update`
(dataset_manager.py line 220).  The `Dataset` class (dataset.py) defines the
attribute `metadata` and no attribute named `meta`, so this lookup raises
AttributeError on every `Dataset` instance; modelled as constantly `none`. -/
def dataset_getattr_meta (_ds : Dataset) : Option PyVal := Option.none

/-- `SMapiDatasetManager.update`: load the old dataset, classify the config
pair, compare `old_ds.meta` with `ds.meta`, and dispatch per the decision
table (ADD with `del_first` on INSTR_PARAMS_DIFF, ADD on NEW_MOL_DB, UPDATE
at HIGH on EQUAL with changed metadata, otherwise log only). -/
def update (ctx : MgrCtx) (st : Storage) (ds : Dataset) (priority : Nat) :
    List Effect × Except SmError Dataset :=
  match Dataset.load st ds.id with
  | .error e => ([], .error e)
  | .ok old_ds =>
    match old_ds.config, ds.config with
    | some oldc, some newc =>
      match compare_configs oldc newc with
      | Option.none => ([], .error .TypeError)
      | some config_diff =>
        match dataset_getattr_meta old_ds, dataset_getattr_meta ds with
        | some mo, some mn =>
          let meta_diff := !(pyEq mo mn)
          if config_diff == .INSTR_PARAMS_DIFF then
            post_sm_msg ctx st ds DatasetAction.ADD priority [(delFirstKey, .bool true)]
          else if config_diff == .NEW_MOL_DB then
            post_sm_msg ctx st ds DatasetAction.ADD priority []
          else if config_diff == .EQUAL && meta_diff then
            post_sm_msg ctx st ds DatasetAction.UPDATE DatasetActionPriority.HIGH []
          else ([], .ok ds)
        | _, _ => ([], .error .AttributeError)
    | _, _ => ([], .error .AttributeError)

end SMapi

/-! ## A heap model for the frame property of `compare_configs` -/

/-- A reference to a Python dict object. -/
abbrev Ref := Nat

/-- A heap of dict objects. -/
abbrev Heap := List (Ref × PyDict)

/-- Dereference. -/
def heapGet (h : Heap) (r : Ref) : Option PyDict :=
  List.lookup r h

/-- Write through a reference (newest binding wins). -/
def heapSet (h : Heap) (r : Ref) (d : PyDict) : Heap :=
  (r, d) :: h

/-- A reference unused by the heap: strictly above every allocated one. -/
def freshRef (h : Heap) : Ref :=
  (h.map Prod.fst).foldr max 0 + 1

/-- `ConfigDiff.compare_configs` with its dict mutations made explicit: the
two `copy()` calls allocate fresh objects and the two `pop('databases',
None)` calls mutate those fresh objects in place.  Returns the
classification together with the final heap. -/
def compare_configs_heap (h : Heap) (rOld rNew : Ref) : Option ConfigDiff × Heap :=
  match heapGet h rOld, heapGet h rNew with
  | some o, some n =>
    if pyEq (.dict o) (.dict n) then (some .EQUAL, h)
    else
      let r1 := freshRef h
      let h1 := heapSet h r1 o
      let r2 := freshRef h1
      let h2 := heapSet h1 r2 n
      let h3 := heapSet h2 r1 (eraseKey databasesKey o)
      let h4 := heapSet h3 r2 (eraseKey databasesKey n)
      (compare_configs_core o n, h4)
  | _, _ => (Option.none, h)

/-- Relatedness of two optional dict lookups: both absent, or both present
with Python-equal values. -/
def optValEq : Option PyVal → Option PyVal → Bool
  | some a, some b => pyEq a b
  | Option.none, Option.none => true
  | _, _ => false

/-- A fully populated dataset fixture used by the concrete witnesses. -/
def dsW : Dataset :=
  { id := some "d1", name := some "n", input_path := some "p",
    upload_dt := some "t", metadata := some (.dict []),
    config := some [("instr", PyVal.str "FTICR")],
    status := some DatasetStatus.NEW, is_public := some true,
    mol_dbs := some ["HMDB"] }

/-- The queue message `delete` publishes for `dsW`. -/
def msgW : PyDict :=
  [(dsIdKey, .str "d1"), (dsNameKey, .str "n"), (inputPathKey, .str "p"),
   (actionKey, .str "DELETE")]

/-! ## Lemmas about Python equality on values -/

theorem pyFindEq_eq_lookup (k : String) (v : PyVal) (d2 : PyDict) :
    pyFindEq k v d2 = match pyLookup k d2 with
      | some w => pyEq v w
      | Option.none => false := by
  induction d2 with
  | nil => simp [pyFindEq, pyLookup]
  | cons e rest ih =>
    obtain ⟨k2, w⟩ := e
    by_cases h : k == k2 <;> simp [pyFindEq, pyLookup, h, ih]

theorem pyEqEntries_iff (d1 d2 : PyDict) :
    pyEqEntries d1 d2 = true ↔ ∀ k v, (k, v) ∈ d1 → pyFindEq k v d2 = true := by
  induction d1 with
  | nil => simp [pyEqEntries]
  | cons e rest ih =>
    obtain ⟨k, v⟩ := e
    simp [pyEqEntries, ih]
    aesop

theorem pyLookup_mem {k : String} {v : PyVal} {d : PyDict}
    (h : pyLookup k d = some v) : (k, v) ∈ d := by
  induction d with
  | nil => simp [pyLookup] at h
  | cons e rest ih =>
    obtain ⟨k2, w⟩ := e
    by_cases hk : k == k2
    · simp [pyLookup, hk] at h
      simp at hk
      simp [hk, h]
    · simp [pyLookup, hk] at h
      simp [ih h]

theorem pyLookup_eq_none_iff {k : String} {d : PyDict} :
    pyLookup k d = Option.none ↔ ∀ e ∈ d, e.1 ≠ k := by
  induction d with
  | nil => simp [pyLookup]
  | cons e rest ih =>
    obtain ⟨k2, w⟩ := e
    by_cases hk : k == k2
    · simp at hk
      simp [pyLookup, hk]
    · simp at hk
      simp [pyLookup, hk, ih]
      exact fun _ => fun h => (hk h.symm).elim

theorem pyLookup_isSome_iff {k : String} {d : PyDict} :
    (pyLookup k d).isSome = true ↔ ∃ e ∈ d, e.1 = k := by
  induction d with
  | nil => simp [pyLookup]
  | cons e rest ih =>
    obtain ⟨k2, w⟩ := e
    by_cases hk : k = k2
    · subst hk
      simp [pyLookup]
    · have hkb : (k == k2) = false := by simp [hk]
      simp only [pyLookup, hkb, Bool.false_eq_true, if_false, List.mem_cons]
      rw [ih]
      constructor
      · rintro ⟨e1, hm, he⟩
        exact ⟨e1, Or.inr hm, he⟩
      · rintro ⟨e1, hm | hm, he⟩
        · subst hm
          exact (hk he.symm).elim
        · exact ⟨e1, hm, he⟩

theorem pyKeysIncl_iff (d2 d1 : PyDict) :
    pyKeysIncl d2 d1 = true ↔ ∀ e ∈ d2, (pyLookup e.1 d1).isSome = true := by
  simp only [pyKeysIncl, List.all_eq_true]
  constructor
  · intro h e hm
    have := h e hm
    simp only [List.any_eq_true] at this
    obtain ⟨e1, hm1, he⟩ := this
    rw [pyLookup_isSome_iff]
    simp at he
    exact ⟨e1, hm1, he⟩
  · intro h e hm
    have := h e hm
    rw [pyLookup_isSome_iff] at this
    obtain ⟨e1, hm1, he⟩ := this
    simp only [List.any_eq_true]
    exact ⟨e1, hm1, by simp [he]⟩

theorem keysNodup_iff {d : PyDict} :
    keysNodup d = true ↔ (d.map Prod.fst).Nodup := by
  induction d with
  | nil => simp [keysNodup]
  | cons e rest ih =>
    simp only [keysNodup, List.map_cons, List.nodup_cons, Bool.and_eq_true,
      Bool.not_eq_true', List.any_eq_false, ih]
    constructor
    · rintro ⟨h1, h2⟩
      refine ⟨?_, h2⟩
      intro hm
      simp only [List.mem_map] at hm
      obtain ⟨e2, hm2, he⟩ := hm
      have := h1 e2 hm2
      simp [he] at this
    · rintro ⟨h1, h2⟩
      refine ⟨?_, h2⟩
      intro e2 hm2
      by_cases he : e2.1 = e.1
      · exact absurd (List.mem_map.mpr ⟨e2, hm2, he⟩) h1
      · simp [he]

theorem pyLookup_mem_nodup {k : String} {v : PyVal} {d : PyDict}
    (hnd : keysNodup d = true) (hm : (k, v) ∈ d) : pyLookup k d = some v := by
  induction d with
  | nil => simp at hm
  | cons e rest ih =>
    obtain ⟨k2, w⟩ := e
    simp only [keysNodup, Bool.and_eq_true, Bool.not_eq_true', List.any_eq_false] at hnd
    obtain ⟨hn1, hn2⟩ := hnd
    rcases List.mem_cons.mp hm with h | h
    · injection h with h1 h2
      subst h1
      subst h2
      simp [pyLookup]
    · by_cases hkk : k = k2
      · exfalso
        have := hn1 (k, v) h
        simp [hkk] at this
      · simp [pyLookup, hkk]
        exact ih hn2 h

theorem pyEq_dict_lookup {d1 d2 : PyDict}
    (h : pyEq (.dict d1) (.dict d2) = true) (k : String) :
    optValEq (pyLookup k d1) (pyLookup k d2) = true := by
  have h' : (pyEqEntries d1 d2 && pyKeysIncl d2 d1) = true := by
    rw [← h]
    simp [pyEq]
  rw [Bool.and_eq_true] at h'
  obtain ⟨he, hk⟩ := h'
  cases hx : pyLookup k d1 with
  | some v =>
    have hm := pyLookup_mem hx
    have hf := (pyEqEntries_iff d1 d2).mp he k v hm
    rw [pyFindEq_eq_lookup] at hf
    cases hy : pyLookup k d2 with
    | some w => rw [hy] at hf; simpa [optValEq] using hf
    | none => rw [hy] at hf; simp at hf
  | none =>
    cases hy : pyLookup k d2 with
    | some w =>
      exfalso
      have hm2 := pyLookup_mem hy
      have := (pyKeysIncl_iff d2 d1).mp hk (k, w) hm2
      rw [hx] at this
      simp at this
    | none => simp [optValEq]

theorem pyEq_dict_of_lookup {d1 d2 : PyDict} (hnd : keysNodup d1 = true)
    (h : ∀ k, optValEq (pyLookup k d1) (pyLookup k d2) = true) :
    pyEq (.dict d1) (.dict d2) = true := by
  have he : pyEqEntries d1 d2 = true := by
    rw [pyEqEntries_iff]
    intro k v hm
    have hx := pyLookup_mem_nodup hnd hm
    have hv := h k
    rw [hx] at hv
    rw [pyFindEq_eq_lookup]
    cases hy : pyLookup k d2 with
    | some w => rw [hy] at hv; simpa [optValEq] using hv
    | none => rw [hy] at hv; simp [optValEq] at hv
  have hk : pyKeysIncl d2 d1 = true := by
    rw [pyKeysIncl_iff]
    intro e hm
    have h2 : (pyLookup e.1 d2).isSome = true :=
      pyLookup_isSome_iff.mpr ⟨e, hm, rfl⟩
    have hv := h e.1
    cases hx : pyLookup e.1 d1 with
    | some v => simp [hx]
    | none =>
      exfalso
      rw [hx] at hv
      cases hy : pyLookup e.1 d2 with
      | some w => rw [hy] at hv; simp [optValEq] at hv
      | none => rw [hy] at h2; simp at h2
  simp [pyEq, he, hk]

theorem pyLookup_eraseKey_self (s : String) (d : PyDict) :
    pyLookup s (eraseKey s d) = Option.none := by
  induction d with
  | nil => rfl
  | cons e rest ih =>
    obtain ⟨k2, w⟩ := e
    by_cases hs : k2 = s
    · simpa [eraseKey, List.filter_cons, hs] using ih
    · have hb : (s == k2) = false := by
        simp
        exact fun h => hs h.symm
      simpa [eraseKey, List.filter_cons, hs, pyLookup, hb] using ih

theorem pyLookup_eraseKey_ne {k s : String} (hk : k ≠ s) (d : PyDict) :
    pyLookup k (eraseKey s d) = pyLookup k d := by
  induction d with
  | nil => rfl
  | cons e rest ih =>
    obtain ⟨k2, w⟩ := e
    by_cases hs : k2 = s
    · subst hs
      have hb : (k == k2) = false := by simp [hk]
      simpa [eraseKey, List.filter_cons, pyLookup, hb] using ih
    · by_cases hkk : k = k2
      · subst hkk
        simp [eraseKey, List.filter_cons, hs, pyLookup]
      · have hb : (k == k2) = false := by simp [hkk]
        simpa [eraseKey, List.filter_cons, hs, pyLookup, hb] using ih

theorem keysNodup_eraseKey {d : PyDict} (h : keysNodup d = true) (s : String) :
    keysNodup (eraseKey s d) = true := by
  rw [keysNodup_iff] at h ⊢
  exact h.sublist ((List.filter_sublist d).map Prod.fst)

theorem pyEq_dict_erase {d1 d2 : PyDict} (hnd : keysNodup d1 = true)
    (h : pyEq (.dict d1) (.dict d2) = true) (s : String) :
    pyEq (.dict (eraseKey s d1)) (.dict (eraseKey s d2)) = true := by
  apply pyEq_dict_of_lookup (keysNodup_eraseKey hnd s)
  intro k
  by_cases hk : k = s
  · subst hk
    rw [pyLookup_eraseKey_self, pyLookup_eraseKey_self]
    rfl
  · rw [pyLookup_eraseKey_ne hk, pyLookup_eraseKey_ne hk]
    exact pyEq_dict_lookup h k

theorem pyEq_scalar_symm {a : PyVal} (h : pyScalar a = true) (b : PyVal) :
    pyEq a b = pyEq b a := by
  cases a <;> cases b <;> simp [pyEq, pyScalar, beq_iff_eq, eq_comm] at h ⊢

theorem WFEntries_mem {d : PyDict} {k : String} {v : PyVal}
    (h : WFEntries d = true) (hm : (k, v) ∈ d) : WFPy v = true := by
  induction d with
  | nil => simp at hm
  | cons e rest ih =>
    obtain ⟨k2, w⟩ := e
    rw [WFEntries, Bool.and_eq_true] at h
    rcases List.mem_cons.mp hm with h1 | h1
    · injection h1 with ha hb
      subst hb
      exact h.1
    · exact ih h.2 h1

theorem mem_sizeOf_lt {d : PyDict} {k : String} {v : PyVal} (hm : (k, v) ∈ d) :
    sizeOf v < sizeOf d := by
  induction d with
  | nil => simp at hm
  | cons e rest ih =>
    rcases List.mem_cons.mp hm with h1 | h1
    · subst h1
      simp
      omega
    · have := ih h1
      simp
      omega

mutual
theorem pyEq_refl (v : PyVal) (h : WFPy v = true) : pyEq v v = true := by
  match v with
  | .null => simp [pyEq]
  | .bool b => simp [pyEq]
  | .num q => simp [pyEq]
  | .str s => simp [pyEq]
  | .list xs =>
    rw [pyEq]
    exact pyEqList_refl xs (by rw [WFPy] at h; exact h)
  | .dict d =>
    rw [WFPy, Bool.and_eq_true] at h
    apply pyEq_dict_of_lookup h.1
    intro k
    cases hx : pyLookup k d with
    | none => simp [optValEq]
    | some w =>
      have hm := pyLookup_mem hx
      have hlt := mem_sizeOf_lt hm
      simpa [optValEq] using pyEq_refl w (WFEntries_mem h.2 hm)
termination_by sizeOf v
decreasing_by
  all_goals simp <;> omega

theorem pyEqList_refl (xs : List PyVal) (h : WFList xs = true) :
    pyEqList xs xs = true := by
  match xs with
  | [] => simp [pyEqList]
  | x :: rest =>
    rw [WFList, Bool.and_eq_true] at h
    rw [pyEqList, Bool.and_eq_true]
    exact ⟨pyEq_refl x h.1, pyEqList_refl rest h.2⟩
termination_by sizeOf xs
decreasing_by
  all_goals simp <;> omega
end

theorem keysNodup_perm {d1 d2 : PyDict} (hp : d1.Perm d2) (h : keysNodup d1 = true) :
    keysNodup d2 = true := by
  rw [keysNodup_iff] at h ⊢
  exact ((hp.map Prod.fst).nodup_iff).mp h

theorem pyLookup_perm {d1 d2 : PyDict} (hp : d1.Perm d2) (hnd : keysNodup d1 = true)
    (k : String) : pyLookup k d1 = pyLookup k d2 := by
  cases hx : pyLookup k d1 with
  | some v =>
    have hm := pyLookup_mem hx
    have hm2 := hp.mem_iff.mp hm
    exact (pyLookup_mem_nodup (keysNodup_perm hp hnd) hm2).symm
  | none =>
    cases hy : pyLookup k d2 with
    | none => rfl
    | some w =>
      exfalso
      have hm2 := pyLookup_mem hy
      have hm1 := hp.mem_iff.mpr hm2
      rw [pyLookup_eq_none_iff] at hx
      exact hx (k, w) hm1 rfl

theorem pyEq_dict_perm {d1 d1' d2 d2' : PyDict} (h1 : d1.Perm d1') (h2 : d2.Perm d2')
    (hnd1 : keysNodup d1 = true) (hnd2 : keysNodup d2 = true) :
    pyEq (.dict d1') (.dict d2') = pyEq (.dict d1) (.dict d2) := by
  have hL : ∀ k, pyLookup k d1' = pyLookup k d1 := fun k => (pyLookup_perm h1 hnd1 k).symm
  have hR : ∀ k, pyLookup k d2' = pyLookup k d2 := fun k => (pyLookup_perm h2 hnd2 k).symm
  by_cases hb : pyEq (.dict d1) (.dict d2) = true
  · rw [hb]
    apply pyEq_dict_of_lookup (keysNodup_perm h1 hnd1)
    intro k
    rw [hL, hR]
    exact pyEq_dict_lookup hb k
  · have hb' : pyEq (.dict d1) (.dict d2) = false := by
      cases h : pyEq (.dict d1) (.dict d2) with
      | false => rfl
      | true => exact absurd h hb
    rw [hb']
    by_cases hc : pyEq (.dict d1') (.dict d2') = true
    · exfalso
      apply hb
      apply pyEq_dict_of_lookup hnd1
      intro k
      rw [← hL, ← hR]
      exact pyEq_dict_lookup hc k
    · cases h : pyEq (.dict d1') (.dict d2') with
      | false => rfl
      | true => exact absurd h hc

theorem compare_configs_core_perm {old old2 new new2 : PyDict}
    (hpo : old.Perm old2) (hpn : new.Perm new2)
    (hndo : keysNodup old = true) (hndn : keysNodup new = true) :
    compare_configs_core old2 new2 = compare_configs_core old new := by
  unfold compare_configs_core
  have he : pyEq (.dict (eraseKey databasesKey old2)) (.dict (eraseKey databasesKey new2))
      = pyEq (.dict (eraseKey databasesKey old)) (.dict (eraseKey databasesKey new)) := by
    exact pyEq_dict_perm (hpo.filter _) (hpn.filter _)
      (keysNodup_eraseKey hndo _) (keysNodup_eraseKey hndn _)
  have hdbo : pyLookup databasesKey old2 = pyLookup databasesKey old :=
    (pyLookup_perm hpo hndo _).symm
  have hdbn : pyLookup databasesKey new2 = pyLookup databasesKey new :=
    (pyLookup_perm hpn hndn _).symm
  simp only [he, getDatabases, hdbo, hdbn]

theorem compare_configs_perm_aux {old old2 new new2 : PyDict}
    (hpo : old.Perm old2) (hpn : new.Perm new2)
    (hndo : keysNodup old = true) (hndn : keysNodup new = true) :
    compare_configs old2 new2 = compare_configs old new := by
  unfold compare_configs
  rw [pyEq_dict_perm hpo hpn hndo hndn]
  by_cases hb : pyEq (.dict old) (.dict new) = true
  · simp [hb]
  · have hb' : pyEq (.dict old) (.dict new) = false := by
      cases h : pyEq (.dict old) (.dict new) with
      | false => rfl
      | true => exact absurd h hb
    simp only [hb', Bool.false_eq_true, if_false]
    exact compare_configs_core_perm hpo hpn hndo hndn

theorem ConfigWF_keysNodup {c : PyDict} (h : ConfigWF c = true) : keysNodup c = true := by
  unfold ConfigWF at h
  rw [Bool.and_eq_true] at h
  have := h.1
  rw [WFPy, Bool.and_eq_true] at this
  exact this.1

theorem ConfigWF_WFPy {c : PyDict} (h : ConfigWF c = true) : WFPy (.dict c) = true := by
  unfold ConfigWF at h
  rw [Bool.and_eq_true] at h
  exact h.1

theorem getDatabases_wf_cases {c : PyDict} (hwf : ConfigWF c = true) :
    ∃ xs, getDatabases c = some xs ∧ xs.all molDbWF = true ∧
      (pyLookup databasesKey c = Option.none ∧ xs = [] ∨
        pyLookup databasesKey c = some (.list xs)) := by
  unfold ConfigWF at hwf
  rw [Bool.and_eq_true] at hwf
  obtain ⟨_, hdb⟩ := hwf
  unfold getDatabases
  cases hx : pyLookup databasesKey c with
  | none => exact ⟨[], rfl, rfl, Or.inl ⟨rfl, rfl⟩⟩
  | some v =>
    rw [hx] at hdb
    cases v with
    | list xs => exact ⟨xs, rfl, hdb, Or.inr rfl⟩
    | null => simp at hdb
    | bool b => simp at hdb
    | num q => simp at hdb
    | str s => simp at hdb
    | dict d => simp at hdb

theorem molDbPair_wf {x : PyVal} (h : molDbWF x = true) :
    ∃ n ver, molDbPair x = some (n, ver) ∧ pyScalar n = true ∧ pyScalar ver = true := by
  cases x with
  | dict d =>
    unfold molDbWF at h
    rw [Bool.and_eq_true] at h
    obtain ⟨hn, hv⟩ := h
    cases hx : pyLookup nameKey d with
    | none => rw [hx] at hn; simp at hn
    | some n =>
      rw [hx] at hn
      exact ⟨n, _, by simp [molDbPair, hx], hn, hv⟩
  | null => simp [molDbWF] at h
  | bool b => simp [molDbWF] at h
  | num q => simp [molDbWF] at h
  | str s => simp [molDbWF] at h
  | list xs => simp [molDbWF] at h

theorem molDbPair_rel {x y : PyVal} (hwx : molDbWF x = true) (hxy : pyEq x y = true) :
    ∃ nx vx ny vy, molDbPair x = some (nx, vx) ∧ molDbPair y = some (ny, vy) ∧
      pyPairEq (ny, vy) (nx, vx) = true := by
  cases x with
  | dict dx =>
    cases y with
    | dict dy =>
      unfold molDbWF at hwx
      rw [Bool.and_eq_true] at hwx
      obtain ⟨hn, hv⟩ := hwx
      cases hnx : pyLookup nameKey dx with
      | none => rw [hnx] at hn; simp at hn
      | some nx =>
        rw [hnx] at hn
        have hname := pyEq_dict_lookup hxy nameKey
        rw [hnx] at hname
        cases hny : pyLookup nameKey dy with
        | none => rw [hny] at hname; simp [optValEq] at hname
        | some ny =>
          rw [hny] at hname
          simp only [optValEq] at hname
          have hver := pyEq_dict_lookup hxy versionKey
          refine ⟨nx, (pyLookup versionKey dx).getD .null, ny,
            (pyLookup versionKey dy).getD .null,
            by simp [molDbPair, hnx], by simp [molDbPair, hny], ?_⟩
          unfold pyPairEq
          rw [Bool.and_eq_true]
          constructor
          · rw [← pyEq_scalar_symm hn]
            exact hname
          · cases hvx : pyLookup versionKey dx with
            | none =>
              rw [hvx] at hver
              cases hvy : pyLookup versionKey dy with
              | none => simp [pyEq]
              | some wy => rw [hvy] at hver; simp [optValEq] at hver
            | some wx =>
              rw [hvx] at hver
              cases hvy : pyLookup versionKey dy with
              | none => rw [hvy] at hver; simp [optValEq] at hver
              | some wy =>
                rw [hvy] at hver
                simp only [optValEq] at hver
                rw [hvx] at hv
                simp only [Option.getD_some] at hv ⊢
                rw [← pyEq_scalar_symm hv]
                exact hver
    | null => simp [pyEq] at hxy
    | bool b => simp [pyEq] at hxy
    | num q => simp [pyEq] at hxy
    | str s => simp [pyEq] at hxy
    | list ys => simp [pyEq] at hxy
  | null => simp [molDbWF] at hwx
  | bool b => simp [molDbWF] at hwx
  | num q => simp [molDbWF] at hwx
  | str s => simp [molDbWF] at hwx
  | list xs => simp [molDbWF] at hwx

theorem setDiffNonempty_eq_false_iff {ns os : List (PyVal × PyVal)} :
    setDiffNonempty ns os = false ↔ ∀ p ∈ ns, ∃ q ∈ os, pyPairEq p q = true := by
  unfold setDiffNonempty
  rw [List.any_eq_false]
  constructor
  · intro h p hp
    have := h p hp
    simp only [Bool.not_eq_true', Bool.not_eq_false] at this
    rw [List.any_eq_true] at this
    obtain ⟨q, hq, he⟩ := this
    exact ⟨q, hq, he⟩
  · intro h p hp
    obtain ⟨q, hq, he⟩ := h p hp
    simp only [Bool.not_eq_true', Bool.not_eq_false]
    rw [List.any_eq_true]
    exact ⟨q, hq, he⟩

theorem mol_dbs_to_set_of_wf {xs : List PyVal} (h : xs.all molDbWF = true) :
    ∃ s, mol_dbs_to_set xs = some s := by
  induction xs with
  | nil => exact ⟨[], rfl⟩
  | cons x xs2 ih =>
    rw [List.all_cons, Bool.and_eq_true] at h
    obtain ⟨n, ver, hp, _, _⟩ := molDbPair_wf h.1
    obtain ⟨s2, hs2⟩ := ih h.2
    refine ⟨(n, ver) :: s2, ?_⟩
    unfold mol_dbs_to_set at hs2 ⊢
    rw [List.mapM_cons, hp, hs2]
    rfl

theorem mol_dbs_to_set_of_rel {xs : List PyVal} :
    ∀ {ys : List PyVal}, xs.all molDbWF = true → pyEqList xs ys = true →
      ∃ s, mol_dbs_to_set ys = some s := by
  induction xs with
  | nil =>
    intro ys _ heq
    cases ys with
    | nil => exact ⟨[], rfl⟩
    | cons y ys2 => simp [pyEqList] at heq
  | cons x xs2 ih =>
    intro ys hall heq
    cases ys with
    | nil => simp [pyEqList] at heq
    | cons y ys2 =>
      rw [pyEqList, Bool.and_eq_true] at heq
      rw [List.all_cons, Bool.and_eq_true] at hall
      obtain ⟨nx, vx, ny, vy, _, hpy, _⟩ := molDbPair_rel hall.1 heq.1
      obtain ⟨s2, hs2⟩ := ih hall.2 heq.2
      refine ⟨(ny, vy) :: s2, ?_⟩
      unfold mol_dbs_to_set at hs2 ⊢
      rw [List.mapM_cons, hpy, hs2]
      rfl

theorem setDiff_empty_of_lists {xs : List PyVal} :
    ∀ {ys : List PyVal} {os ns : List (PyVal × PyVal)},
      xs.all molDbWF = true → pyEqList xs ys = true →
      mol_dbs_to_set xs = some os → mol_dbs_to_set ys = some ns →
      setDiffNonempty ns os = false := by
  induction xs with
  | nil =>
    intro ys os ns _ heq hos hns
    cases ys with
    | nil =>
      unfold mol_dbs_to_set at hns
      simp only [List.mapM_nil, Option.pure_def, Option.some.injEq] at hns
      subst hns
      simp [setDiffNonempty]
    | cons y ys2 => simp [pyEqList] at heq
  | cons x xs2 ih =>
    intro ys os ns hall heq hos hns
    cases ys with
    | nil => simp [pyEqList] at heq
    | cons y ys2 =>
      rw [pyEqList, Bool.and_eq_true] at heq
      rw [List.all_cons, Bool.and_eq_true] at hall
      obtain ⟨nx, vx, ny, vy, hpx, hpy, hpe⟩ := molDbPair_rel hall.1 heq.1
      unfold mol_dbs_to_set at hos hns
      rw [List.mapM_cons, hpx] at hos
      rw [List.mapM_cons, hpy] at hns
      cases hrest : xs2.mapM molDbPair with
      | none => rw [hrest] at hos; simp at hos
      | some os2 =>
        rw [hrest] at hos
        simp at hos
        cases hrest2 : ys2.mapM molDbPair with
        | none => rw [hrest2] at hns; simp at hns
        | some ns2 =>
          rw [hrest2] at hns
          simp at hns
          subst hos
          subst hns
          rw [setDiffNonempty_eq_false_iff]
          intro p hp
          rcases List.mem_cons.mp hp with h | h
          · subst h
            exact ⟨(nx, vx), List.mem_cons_self _ _, hpe⟩
          · have hih := ih hall.2 heq.2 hrest hrest2
            obtain ⟨q, hq, he⟩ := (setDiffNonempty_eq_false_iff).mp hih p h
            exact ⟨q, List.mem_cons_of_mem _ hq, he⟩

theorem dbs_lists_rel {old new : PyDict} (hwo : ConfigWF old = true)
    (hwn : ConfigWF new = true) (hb : pyEq (.dict old) (.dict new) = true) :
    ∃ xs ys, getDatabases old = some xs ∧ getDatabases new = some ys ∧
      xs.all molDbWF = true ∧ pyEqList xs ys = true := by
  obtain ⟨xs, hgo, hallx, hcase⟩ := getDatabases_wf_cases hwo
  obtain ⟨ys, hgn, hally, hcase2⟩ := getDatabases_wf_cases hwn
  have hopt := pyEq_dict_lookup hb databasesKey
  rcases hcase with ⟨hnone, hxs⟩ | hsome
  · rcases hcase2 with ⟨hnone2, hys⟩ | hsome2
    · subst hxs
      subst hys
      exact ⟨[], [], hgo, hgn, rfl, by simp [pyEqList]⟩
    · rw [hnone, hsome2] at hopt
      simp [optValEq] at hopt
  · rcases hcase2 with ⟨hnone2, hys⟩ | hsome2
    · rw [hsome, hnone2] at hopt
      simp [optValEq] at hopt
    · rw [hsome, hsome2] at hopt
      simp only [optValEq] at hopt
      simp only [pyEq] at hopt
      exact ⟨xs, ys, hgo, hgn, hallx, hopt⟩

theorem classify_spec_eq_core (old new : PyDict) :
    classify_spec old new = compare_configs_core old new := rfl

theorem compare_configs_matches_spec_aux {old new : PyDict}
    (hwo : ConfigWF old = true) (hwn : ConfigWF new = true) :
    compare_configs old new = classify_spec old new := by
  rw [classify_spec_eq_core]
  unfold compare_configs
  by_cases hb : pyEq (.dict old) (.dict new) = true
  · simp only [hb, if_true]
    have hndo := ConfigWF_keysNodup hwo
    have hrest := pyEq_dict_erase hndo hb databasesKey
    obtain ⟨xs, ys, hgo, hgn, hallx, hlist⟩ := dbs_lists_rel hwo hwn hb
    obtain ⟨os, hos⟩ := mol_dbs_to_set_of_wf hallx
    obtain ⟨ns, hns⟩ := mol_dbs_to_set_of_rel hallx hlist
    have hdiff := setDiff_empty_of_lists hallx hlist hos hns
    unfold compare_configs_core
    simp only [hrest, Bool.not_true, Bool.false_eq_true, if_false, hgo, hgn,
      hos, hns, hdiff]
  · have hb' : pyEq (.dict old) (.dict new) = false := by
      cases h : pyEq (.dict old) (.dict new) with
      | false => rfl
      | true => exact absurd h hb
    simp only [hb', Bool.false_eq_true, if_false]

theorem compare_configs_self_aux {c : PyDict} (hw : ConfigWF c = true) :
    compare_configs c c = some ConfigDiff.EQUAL := by
  unfold compare_configs
  simp [pyEq_refl _ (ConfigWF_WFPy hw)]

/-- C2: for every pair of well-formed configs, `compare_configs` equals the
reference classifier written from the spec (strip `databases`, compare the
remainder, then compare the `(name, version)` sets); moreover it is
insensitive to key ordering within a config (permuting the entries of either
argument never changes the result) and `compare_configs x x = EQUAL`.
Determinism holds by construction: the embedding is a pure function. -/
theorem compare_configs_matches_reference :
    (∀ old new : PyDict, ConfigWF old = true → ConfigWF new = true →
      compare_configs old new = classify_spec old new) ∧
    (∀ old old2 new new2 : PyDict, ConfigWF old = true → ConfigWF new = true →
      old.Perm old2 → new.Perm new2 →
      compare_configs old2 new2 = compare_configs old new) ∧
    (∀ c : PyDict, ConfigWF c = true → compare_configs c c = some ConfigDiff.EQUAL) :=
  ⟨fun _ _ hwo hwn => compare_configs_matches_spec_aux hwo hwn,
   fun _ _ _ _ hwo hwn hpo hpn =>
     compare_configs_perm_aux hpo hpn (ConfigWF_keysNodup hwo) (ConfigWF_keysNodup hwn),
   fun _ hw => compare_configs_self_aux hw⟩

/-- Witness for C2 at a concrete config carrying an instrument entry and one
versioned database. -/
theorem compare_configs_matches_reference_witness :
    compare_configs
        [("instrument", PyVal.str "FTICR"),
         (databasesKey, PyVal.list [PyVal.dict
            [(nameKey, PyVal.str "HMDB"), (versionKey, PyVal.str "2016")]])]
        [("instrument", PyVal.str "FTICR"),
         (databasesKey, PyVal.list [PyVal.dict
            [(nameKey, PyVal.str "HMDB"), (versionKey, PyVal.str "2016")]])]
      = some ConfigDiff.EQUAL ∧
    compare_configs
        [("instrument", PyVal.str "FTICR"),
         (databasesKey, PyVal.list [PyVal.dict
            [(nameKey, PyVal.str "HMDB"), (versionKey, PyVal.str "2016")]])]
        [("instrument", PyVal.str "FTICR"),
         (databasesKey, PyVal.list [PyVal.dict
            [(nameKey, PyVal.str "HMDB"), (versionKey, PyVal.str "2016")]])]
      = classify_spec
        [("instrument", PyVal.str "FTICR"),
         (databasesKey, PyVal.list [PyVal.dict
            [(nameKey, PyVal.str "HMDB"), (versionKey, PyVal.str "2016")]])]
        [("instrument", PyVal.str "FTICR"),
         (databasesKey, PyVal.list [PyVal.dict
            [(nameKey, PyVal.str "HMDB"), (versionKey, PyVal.str "2016")]])] := by
  have hw : ConfigWF
      [("instrument", PyVal.str "FTICR"),
       (databasesKey, PyVal.list [PyVal.dict
          [(nameKey, PyVal.str "HMDB"), (versionKey, PyVal.str "2016")]])] = true := by
    simp [ConfigWF, WFPy, WFEntries, WFList, keysNodup, pyLookup, molDbWF,
      pyScalar, databasesKey, nameKey, versionKey]
  exact ⟨compare_configs_matches_reference.2.2 _ hw,
    compare_configs_matches_reference.1 _ _ hw hw⟩

theorem key_le_fold {h : Heap} {p : Ref × PyDict} (hm : p ∈ h) :
    p.1 ≤ (h.map Prod.fst).foldr max 0 := by
  induction h with
  | nil => simp at hm
  | cons e t ih =>
    rw [List.map_cons, List.foldr_cons]
    rcases List.mem_cons.mp hm with h1 | h1
    · subst h1
      exact le_max_left _ _
    · exact le_trans (ih h1) (le_max_right _ _)

theorem lookup_mem_nat {r : Ref} {d : PyDict} {h : Heap}
    (hm : List.lookup r h = some d) : (r, d) ∈ h := by
  induction h with
  | nil => simp [List.lookup] at hm
  | cons e t ih =>
    obtain ⟨k, v⟩ := e
    rw [List.lookup] at hm
    by_cases hk : r = k
    · subst hk
      simp at hm
      simp [hm]
    · have hb : (r == k) = false := by simp [hk]
      rw [hb] at hm
      simp only [] at hm
      exact List.mem_cons_of_mem _ (ih hm)

theorem heapGet_lt_freshRef {h : Heap} {r : Ref} {d : PyDict}
    (hm : heapGet h r = some d) : r < freshRef h := by
  unfold heapGet at hm
  have h2 : r ≤ (h.map Prod.fst).foldr max 0 := key_le_fold (lookup_mem_nat hm)
  unfold freshRef
  exact Nat.lt_succ_of_le h2

theorem freshRef_heapSet_le (h : Heap) (r : Ref) (d : PyDict) :
    freshRef h ≤ freshRef (heapSet h r d) := by
  unfold freshRef heapSet
  rw [List.map_cons, List.foldr_cons]
  exact Nat.add_le_add_right (Nat.le_max_right _ _) 1

theorem heapGet_heapSet_ne {h : Heap} {r r2 : Ref} {d : PyDict} (hne : r ≠ r2) :
    heapGet (heapSet h r2 d) r = heapGet h r := by
  have hb : (r == r2) = false := by simp [hne]
  unfold heapGet heapSet
  rw [List.lookup, hb]

theorem compare_configs_heap_eq (h : Heap) (rOld rNew : Ref) {o n : PyDict}
    (ho : heapGet h rOld = some o) (hn : heapGet h rNew = some n) :
    compare_configs_heap h rOld rNew =
      (compare_configs o n,
       if pyEq (.dict o) (.dict n) = true then h
       else
         heapSet (heapSet (heapSet (heapSet h (freshRef h) o)
             (freshRef (heapSet h (freshRef h) o)) n)
           (freshRef h) (eraseKey databasesKey o))
           (freshRef (heapSet h (freshRef h) o)) (eraseKey databasesKey n)) := by
  unfold compare_configs_heap
  rw [ho, hn]
  by_cases hb : pyEq (.dict o) (.dict n) = true
  · simp [hb, compare_configs]
  · have hb' : pyEq (.dict o) (.dict n) = false := by
      cases hx : pyEq (.dict o) (.dict n) with
      | false => rfl
      | true => exact absurd hx hb
    simp [hb', compare_configs]

theorem compare_configs_heap_none {h : Heap} {rOld rNew : Ref}
    (hno : ¬((heapGet h rOld).isSome = true ∧ (heapGet h rNew).isSome = true)) :
    compare_configs_heap h rOld rNew = (Option.none, h) := by
  unfold compare_configs_heap
  cases ho : heapGet h rOld with
  | none => rfl
  | some o0 =>
    cases hn : heapGet h rNew with
    | none => rfl
    | some n0 =>
      exact absurd ⟨by rw [ho]; rfl, by rw [hn]; rfl⟩ hno

/-- C10: `compare_configs` leaves both of its argument dicts unchanged: the
`copy()` calls allocate fresh objects and `pop('databases', None)` mutates
only those copies, so after the call the heap still holds the original old
and new configs at their references; the returned classification agrees
with the pure `compare_configs` of the two referenced dicts. -/
theorem compare_configs_heap_frame :
    ∀ (h : Heap) (rOld rNew : Ref),
      heapGet (compare_configs_heap h rOld rNew).2 rOld = heapGet h rOld ∧
      heapGet (compare_configs_heap h rOld rNew).2 rNew = heapGet h rNew ∧
      (∀ o n, heapGet h rOld = some o → heapGet h rNew = some n →
        (compare_configs_heap h rOld rNew).1 = compare_configs o n) := by
  intro h rOld rNew
  by_cases hsome : (heapGet h rOld).isSome = true ∧ (heapGet h rNew).isSome = true
  · obtain ⟨hs1, hs2⟩ := hsome
    obtain ⟨o0, ho⟩ := Option.isSome_iff_exists.mp hs1
    obtain ⟨n0, hn⟩ := Option.isSome_iff_exists.mp hs2
    rw [compare_configs_heap_eq h rOld rNew ho hn]
    by_cases hb : pyEq (.dict o0) (.dict n0) = true
    · rw [if_pos hb]
      refine ⟨rfl, rfl, fun o n h1 h2 => ?_⟩
      rw [ho] at h1
      rw [hn] at h2
      injection h1 with h1
      injection h2 with h2
      subst h1
      subst h2
      rfl
    · rw [if_neg hb]
      have hlt1 : rOld < freshRef h := heapGet_lt_freshRef ho
      have hlt2 : rNew < freshRef h := heapGet_lt_freshRef hn
      have hle : freshRef h ≤ freshRef (heapSet h (freshRef h) o0) :=
        freshRef_heapSet_le h _ o0
      have hno1 : rOld ≠ freshRef h := Nat.ne_of_lt hlt1
      have hno2 : rOld ≠ freshRef (heapSet h (freshRef h) o0) :=
        Nat.ne_of_lt (lt_of_lt_of_le hlt1 hle)
      have hnn1 : rNew ≠ freshRef h := Nat.ne_of_lt hlt2
      have hnn2 : rNew ≠ freshRef (heapSet h (freshRef h) o0) :=
        Nat.ne_of_lt (lt_of_lt_of_le hlt2 hle)
      refine ⟨?_, ?_, fun o n h1 h2 => ?_⟩
      · simp only [heapGet_heapSet_ne hno2, heapGet_heapSet_ne hno1]
      · simp only [heapGet_heapSet_ne hnn2, heapGet_heapSet_ne hnn1]
      · rw [ho] at h1
        rw [hn] at h2
        injection h1 with h1
        injection h2 with h2
        subst h1
        subst h2
        rfl
  · rw [compare_configs_heap_none hsome]
    refine ⟨rfl, rfl, fun o n h1 h2 => ?_⟩
    exact absurd ⟨by rw [h1]; rfl, by rw [h2]; rfl⟩ hsome

/-- Witness for C10 at a one-cell heap holding the same config at references
0 and 0: the heap after classification still binds the config. -/
theorem compare_configs_heap_frame_witness :
    heapGet (compare_configs_heap [(0, [("a", PyVal.num 1)])] 0 0).2 0
        = heapGet [(0, [("a", PyVal.num 1)])] 0 ∧
      (compare_configs_heap [(0, [("a", PyVal.num 1)])] 0 0).1
        = compare_configs [("a", PyVal.num 1)] [("a", PyVal.num 1)] := by
  refine ⟨(compare_configs_heap_frame [(0, [("a", PyVal.num 1)])] 0 0).1, ?_⟩
  exact (compare_configs_heap_frame [(0, [("a", PyVal.num 1)])] 0 0).2.2
    [("a", PyVal.num 1)] [("a", PyVal.num 1)] rfl rfl

/-! ## Theorems about the peak-table assembler -/

/-- C3 (evaluation of the code at a failing input): with nonempty target
and decoy rows whose `(formula_id, adduct)` pairs are pairwise distinct —
an input the claim says must assemble into a table — `sf_df` raises the
`pd.unique` error and returns no table; a duplicated pair fails the same
way, not with the intended consistency assertion.  The distinct-pair count
is never computed. -/
theorem sf_df_pd_unique_crash :
    sf_df [⟨1, "+H", [], []⟩] [⟨2, "+Na", [], []⟩]
        = Except.error MolDbError.pdUniqueRaises ∧
      (pairsOf ([⟨1, "+H", [], []⟩] ++ [⟨2, "+Na", [], []⟩])).Nodup ∧
      sf_df [⟨1, "+H", [], []⟩] [⟨1, "+H", [], []⟩]
        = Except.error MolDbError.pdUniqueRaises := by
  refine ⟨rfl, by decide, rfl⟩

/-- C7: if either the target query or the decoy query returns zero rows,
`sf_df` fails with a fatal error and returns no table at all. -/
theorem sf_df_empty_query_fatal :
    ∀ target decoy : List PeakRow, target = [] ∨ decoy = [] →
      ∃ e, sf_df target decoy = .error e := by
  intro target decoy hcase
  rcases hcase with h | h
  · subst h
    exact ⟨.noTargetPeaks, rfl⟩
  · subst h
    cases target with
    | nil => exact ⟨.noTargetPeaks, rfl⟩
    | cons r rest => exact ⟨.noDecoyPeaks, rfl⟩

/-- Witness for C7: an empty decoy result aborts even when target rows
exist, and no table is produced. -/
theorem sf_df_empty_query_fatal_witness :
    ∃ e, sf_df [⟨1, "+H", [], []⟩] [] = Except.error e :=
  sf_df_empty_query_fatal [⟨1, "+H", [], []⟩] [] (Or.inr rfl)

/-! ## Theorems about the optical-image effective zoom -/

/-- Counterexample for C6: for a 2000 by 500 reconstructed image at
requested zoom 1 the effective zoom is `round(0.5)`, and Python 3 `round`
is half-to-even, so the registrar computes 0 — not 1 as the claim states. -/
theorem transform_scan_zoom_half_counterexample :
    (transform_scan ⟨1, 0, 0, 0, 1, 0, 0, 0, 1⟩ 2000 500 1).eff_zoom = 0 ∧
      (transform_scan ⟨1, 0, 0, 0, 1, 0, 0, 0, 1⟩ 2000 500 1).eff_zoom ≠ 1 := by
  have hf : Int.fdiv 1 2 = 0 := by decide
  constructor
  · norm_num [transform_scan, pyRound, pymin, ratFloor, VIEWPORT_WIDTH,
      VIEWPORT_HEIGHT, hf]
  · norm_num [transform_scan, pyRound, pymin, ratFloor, VIEWPORT_WIDTH,
      VIEWPORT_HEIGHT, hf]

/-- C6 (amended): the effective zoom equals `z * min(1000/width,
500/height)` rounded with Python 3 half-to-even rounding, and the resampling
canvas is the image size scaled by it; for a 1000 by 500 image at zoom 1 the
effective zoom is 1, while for 2000 by 500 at zoom 1 it is
`round(0.5) = 0`. -/
theorem transform_scan_zoom_spec :
    (∀ (t : Mat3) (w h : Nat) (z : Rat),
      (transform_scan t w h z).eff_zoom
          = pyRound (z * pymin ((1000 : Rat) / (w : Rat)) ((500 : Rat) / (h : Rat))) ∧
      (transform_scan t w h z).canvas_w = (w : Int) * (transform_scan t w h z).eff_zoom ∧
      (transform_scan t w h z).canvas_h = (h : Int) * (transform_scan t w h z).eff_zoom) ∧
    (transform_scan ⟨1, 0, 0, 0, 1, 0, 0, 0, 1⟩ 1000 500 1).eff_zoom = 1 ∧
    (transform_scan ⟨1, 0, 0, 0, 1, 0, 0, 0, 1⟩ 2000 500 1).eff_zoom = 0 := by
  have hf0 : Int.fdiv 1 2 = 0 := by decide
  have hf1 : Int.fdiv 1 1 = 1 := by decide
  refine ⟨fun t w h z => ⟨rfl, rfl, rfl⟩, ?_, ?_⟩
  · norm_num [transform_scan, pyRound, pymin, ratFloor, VIEWPORT_WIDTH,
      VIEWPORT_HEIGHT, hf1]
  · norm_num [transform_scan, pyRound, pymin, ratFloor, VIEWPORT_WIDTH,
      VIEWPORT_HEIGHT, hf0]

/-! ## Theorems about dataset persistence -/

theorem optStrTruthy_iff {o : Option String} :
    optStrTruthy o = true ↔ ∃ s, o = some s ∧ s ≠ "" := by
  cases o <;> simp [optStrTruthy]

theorem optDictTruthy_iff {o : Option PyDict} :
    optDictTruthy o = true ↔ ∃ c, o = some c ∧ c ≠ [] := by
  cases o <;> simp [optDictTruthy, List.isEmpty_iff]

theorem optListTruthy_iff {o : Option (List String)} :
    optListTruthy o = true ↔ ∃ l, o = some l ∧ l ≠ [] := by
  cases o <;> simp [optListTruthy, List.isEmpty_iff]

theorem save_assert_iff {ds : Dataset} :
    save_assert ds = true ↔
      (∃ s, ds.id = some s ∧ s ≠ "") ∧ (∃ s, ds.name = some s ∧ s ≠ "") ∧
      (∃ s, ds.input_path = some s ∧ s ≠ "") ∧ (∃ d, ds.upload_dt = some d) ∧
      (∃ c, ds.config = some c ∧ c ≠ []) ∧ (∃ s, ds.status = some s ∧ s ≠ "") ∧
      ds.is_public ≠ Option.none ∧ (∃ l, ds.mol_dbs = some l ∧ l ≠ []) := by
  unfold save_assert
  simp [Bool.and_eq_true, optStrTruthy_iff, optDictTruthy_iff, optListTruthy_iff,
    Option.isSome_iff_exists, Option.ne_none_iff_isSome, and_assoc]

/-- Counterexample for C8: `save` succeeds on a dataset whose metadata is
`None` (metadata is not in the assert), and fails on a dataset whose status
is absent (status is in the assert) — so metadata is not required and
status is not optional. -/
theorem save_metadata_status_counterexample :
    (Dataset.save [] false
      { id := some "2000-01-01", name := some "ds", input_path := some "input",
        upload_dt := some "2017-01-01 00:00:00", metadata := Option.none,
        config := some [("instr", PyVal.str "FTICR")],
        status := some DatasetStatus.NEW, is_public := some true,
        mol_dbs := some ["HMDB"] }).2 = Except.ok () ∧
    (Dataset.save [] false
      { id := some "2000-01-01", name := some "ds", input_path := some "input",
        upload_dt := some "2017-01-01 00:00:00", metadata := some (.dict []),
        config := some [("instr", PyVal.str "FTICR")],
        status := Option.none, is_public := some true,
        mol_dbs := some ["HMDB"] }).2 = Except.error SmError.AssertionError := by
  constructor
  · rfl
  · rfl

/-- C8 (amended): persistence succeeds exactly when id, name, input_path,
upload timestamp, config, status and bound molecular-database set are all
truthy and the visibility flag is not `None`; metadata is not required, and
status (contrary to the claim) is required. -/
theorem save_requires_exactly :
    ∀ (st : Storage) (q : Bool) (ds : Dataset),
      (Dataset.save st q ds).2 = Except.ok () ↔
        ((∃ s, ds.id = some s ∧ s ≠ "") ∧ (∃ s, ds.name = some s ∧ s ≠ "") ∧
         (∃ s, ds.input_path = some s ∧ s ≠ "") ∧ (∃ d, ds.upload_dt = some d) ∧
         (∃ c, ds.config = some c ∧ c ≠ []) ∧ (∃ s, ds.status = some s ∧ s ≠ "") ∧
         ds.is_public ≠ Option.none ∧ (∃ l, ds.mol_dbs = some l ∧ l ≠ [])) := by
  intro st q ds
  rw [← save_assert_iff]
  unfold Dataset.save
  by_cases ha : save_assert ds = true
  · simp [ha]
  · simp [ha]

/-- Witness for C8 at a fully populated dataset: save succeeds and every
required field is indeed present. -/
theorem save_requires_exactly_witness :
    (Dataset.save [] false
      { id := some "2000-01-01", name := some "ds", input_path := some "input",
        upload_dt := some "2017-01-01 00:00:00", metadata := some (.dict []),
        config := some [("instr", PyVal.str "FTICR")],
        status := some DatasetStatus.NEW, is_public := some true,
        mol_dbs := some ["HMDB"] }).2 = Except.ok () := by
  rw [save_requires_exactly]
  refine ⟨⟨"2000-01-01", rfl, by simp⟩, ⟨"ds", rfl, by simp⟩,
    ⟨"input", rfl, by simp⟩, ⟨"2017-01-01 00:00:00", rfl⟩,
    ⟨[("instr", PyVal.str "FTICR")], rfl, by simp⟩,
    ⟨DatasetStatus.NEW, rfl, by simp [DatasetStatus.NEW]⟩, by simp,
    ⟨["HMDB"], rfl, by simp⟩⟩

/-! ## Theorems about the queued dispatcher -/

theorem pyLookup_dictSet_self (d : PyDict) (k : String) (v : PyVal) :
    pyLookup k (dictSet d k v) = some v := by
  induction d with
  | nil => simp [dictSet, pyLookup]
  | cons e rest ih =>
    obtain ⟨k2, w⟩ := e
    by_cases hk : k2 = k
    · subst hk
      simp [dictSet, pyLookup]
    · have hb : (k2 == k) = false := by simp [hk]
      have hb2 : (k == k2) = false := by
        simp
        exact fun h => hk h.symm
      simp only [dictSet, hb, Bool.false_eq_true, if_false, pyLookup, hb2]
      exact ih

theorem pyLookup_dictSet_ne {k k2 : String} (d : PyDict) (v : PyVal) (hk : k ≠ k2) :
    pyLookup k (dictSet d k2 v) = pyLookup k d := by
  have hbk : (k == k2) = false := by simp [hk]
  induction d with
  | nil => simp [dictSet, pyLookup, hbk]
  | cons e rest ih =>
    obtain ⟨k3, w⟩ := e
    by_cases h3 : k3 = k2
    · subst h3
      have hb3 : (k == k3) = false := hbk
      simp only [dictSet, beq_self_eq_true, if_true, pyLookup, hbk, hb3,
        Bool.false_eq_true, if_false]
    · have hb3 : (k3 == k2) = false := by simp [h3]
      simp only [dictSet, hb3, Bool.false_eq_true, if_false, pyLookup]
      by_cases hkk : k = k3
      · subst hkk
        simp
      · have hbkk : (k == k3) = false := by simp [hkk]
        simp only [hbkk, Bool.false_eq_true, if_false]
        exact ih

theorem dictUpdate_nil (d : PyDict) : dictUpdate d [] = d := rfl

theorem dictUpdate_single (d : PyDict) (k : String) (v : PyVal) :
    dictUpdate d [(k, v)] = dictSet d k v := rfl

theorem post_sm_msg_publish_shape {ctx : MgrCtx} {st : Storage} {ds : Dataset}
    {action : String} {priority : Nat} {kwargs : PyDict} {msg : PyDict} {p : Nat}
    (hmem : Effect.queuePublish msg p ∈
      (SMapi.post_sm_msg ctx st ds action priority kwargs).1) :
    p = priority ∧
      ∃ base, Dataset.to_queue_message { ds with status := some DatasetStatus.QUEUED }
          = some base ∧
        msg = dictUpdate (dictSet base actionKey (.str action)) kwargs := by
  unfold SMapi.post_sm_msg Dataset.set_status Dataset.save at hmem
  by_cases hs : save_assert { ds with status := some DatasetStatus.QUEUED } = true
  · simp only [hs, if_true] at hmem
    by_cases hq : (ctx.mode == queueMode) = true
    · simp only [hq, if_true] at hmem
      cases hm : Dataset.to_queue_message { ds with status := some DatasetStatus.QUEUED } with
      | none =>
        rw [hm] at hmem
        simp at hmem
      | some base =>
        rw [hm] at hmem
        simp only [List.append_assoc, List.mem_append, List.mem_cons,
          List.mem_singleton, List.not_mem_nil] at hmem
        rcases hmem with h | h
        · rcases h with h | h
          · simp at h
          · rcases h with h | h
            · simp at h
            · exact absurd h (by simp)
        · rcases h with h | h
          · by_cases hsq : ctx.hasStatusQueue = true <;> simp [hsq] at h
          · rcases h with h | h
            · injection h with h1 h2
              exact ⟨h2, base, rfl, h1⟩
            · exact absurd h (by simp)
    · simp only [hq, Bool.false_eq_true, if_false] at hmem
      by_cases hsq : ctx.hasStatusQueue = true <;> simp [hsq] at hmem
  · simp only [hs, Bool.false_eq_true, if_false] at hmem
    simp at hmem

theorem to_queue_message_no_del_raw {ds : Dataset} {base : PyDict}
    (h : Dataset.to_queue_message ds = some base) :
    pyLookup delRawDataKey base = Option.none := by
  unfold Dataset.to_queue_message at h
  cases hm : ds.metadata with
  | none => rw [hm] at h; simp at h
  | some meta =>
    rw [hm] at h
    simp only [Option.bind_eq_bind, Option.some_bind] at h
    cases he : extractEmail meta with
    | none => rw [he] at h; simp at h
    | some em =>
      rw [he] at h
      simp only [Option.bind_eq_bind, Option.some_bind, Option.pure_def,
        Option.some.injEq] at h
      cases em with
      | none =>
        subst h
        simp [pyLookup, delRawDataKey, dsIdKey, dsNameKey, inputPathKey]
      | some e =>
        subst h
        simp [pyLookup, delRawDataKey, dsIdKey, dsNameKey, inputPathKey,
          userEmailKey]

theorem post_sm_msg_eq {st : Storage} {ds : Dataset} {action : String}
    {priority : Nat} {kwargs : PyDict} {base : PyDict} {sq : Bool}
    (hs : save_assert { ds with status := some DatasetStatus.QUEUED } = true)
    (hm : Dataset.to_queue_message { ds with status := some DatasetStatus.QUEUED }
      = some base) :
    SMapi.post_sm_msg ⟨queueMode, sq⟩ st ds action priority kwargs =
      ([Effect.dbWrite (!Dataset.is_stored st { ds with status := some DatasetStatus.QUEUED })
          ds.id (some DatasetStatus.QUEUED), Effect.esSync ds.id] ++
        (if sq then [Effect.statusPublish ds.id (some DatasetStatus.QUEUED)] else []) ++
        [Effect.queuePublish (dictUpdate (dictSet base actionKey (.str action)) kwargs)
          priority],
       Except.ok { ds with status := some DatasetStatus.QUEUED }) := by
  unfold SMapi.post_sm_msg Dataset.set_status Dataset.save
  simp only [hs, if_true, hm]
  simp [List.append_assoc]

/-- C5: every message that `delete` on the queued dispatcher publishes goes out at
priority HIGH (2); `delete` does not even accept a caller priority that
could override it. -/
theorem api_delete_priority_high :
    ∀ (sq : Bool) (st : Storage) (ds : Dataset) (del_raw_data : Bool)
      (msg : PyDict) (p : Nat),
      Effect.queuePublish msg p ∈
          (SMapi.delete ⟨queueMode, sq⟩ st ds del_raw_data).1 →
      p = DatasetActionPriority.HIGH := by
  intro sq st ds raw msg p hmem
  exact (post_sm_msg_publish_shape hmem).1

/-- C9: `delete` on the queued dispatcher drops the caller-supplied
`del_raw_data` flag: the outcome of the call does not depend on it, and no
published message carries a `del_raw_data` key. -/
theorem api_delete_omits_del_raw_data :
    ∀ (sq : Bool) (st : Storage) (ds : Dataset) (r1 r2 : Bool),
      SMapi.delete ⟨queueMode, sq⟩ st ds r1 = SMapi.delete ⟨queueMode, sq⟩ st ds r2 ∧
      (∀ msg p, Effect.queuePublish msg p ∈ (SMapi.delete ⟨queueMode, sq⟩ st ds r1).1 →
        pyLookup delRawDataKey msg = Option.none) := by
  intro sq st ds r1 r2
  refine ⟨rfl, fun msg p hmem => ?_⟩
  obtain ⟨_, base, hbase, hmsg⟩ := post_sm_msg_publish_shape hmem
  subst hmsg
  rw [dictUpdate_nil]
  rw [pyLookup_dictSet_ne _ _ (by decide)]
  exact to_queue_message_no_del_raw hbase

/-- C4: an ADD on the queued dispatcher against a stored dataset id without
`del_first` fails with DSIDExists, performing no write and publishing
nothing; every other ADD sets the status to QUEUED (returned dataset and
storage write) and publishes one message carrying the ADD action and the
`del_first` extra at the priority the caller supplied. -/
theorem api_add_spec :
    ∀ (sq : Bool) (st : Storage) (ds : Dataset) (del_first : Bool) (priority : Nat),
      ((del_first = false ∧ Dataset.is_stored st ds = true) →
        SMapi.add ⟨queueMode, sq⟩ st ds del_first priority
          = ([], Except.error SmError.DSIDExists)) ∧
      (∀ base, ¬(del_first = false ∧ Dataset.is_stored st ds = true) →
        save_assert { ds with status := some DatasetStatus.QUEUED } = true →
        Dataset.to_queue_message { ds with status := some DatasetStatus.QUEUED }
            = some base →
        (SMapi.add ⟨queueMode, sq⟩ st ds del_first priority).2
            = Except.ok { ds with status := some DatasetStatus.QUEUED } ∧
          Effect.dbWrite (!Dataset.is_stored st { ds with status := some DatasetStatus.QUEUED })
              ds.id (some DatasetStatus.QUEUED)
            ∈ (SMapi.add ⟨queueMode, sq⟩ st ds del_first priority).1 ∧
          ∃ msg, Effect.queuePublish msg priority
              ∈ (SMapi.add ⟨queueMode, sq⟩ st ds del_first priority).1 ∧
            pyLookup actionKey msg = some (.str DatasetAction.ADD) ∧
            pyLookup delFirstKey msg = some (.bool del_first)) := by
  intro sq st ds del_first priority
  constructor
  · rintro ⟨h1, h2⟩
    subst h1
    unfold SMapi.add
    simp [h2]
  · intro base hneg hs hm
    have hcond : (!del_first && Dataset.is_stored st ds) = false := by
      cases del_first with
      | true => rfl
      | false =>
        cases hst : Dataset.is_stored st ds with
        | false => rfl
        | true => exact absurd ⟨rfl, hst⟩ hneg
    unfold SMapi.add
    simp only [hcond, Bool.false_eq_true, if_false]
    rw [post_sm_msg_eq hs hm]
    refine ⟨rfl, by simp, ?_⟩
    refine ⟨dictUpdate (dictSet base actionKey (.str DatasetAction.ADD))
      [(delFirstKey, .bool del_first)], by simp, ?_, ?_⟩
    · rw [dictUpdate_single, pyLookup_dictSet_ne _ _ (by decide),
        pyLookup_dictSet_self]
    · rw [dictUpdate_single, pyLookup_dictSet_self]

theorem update_attr_error_general {ctx : MgrCtx} {st : Storage} {ds : Dataset}
    {priority : Nat} {old_ds : Dataset} {oldc newc : PyDict} {cd : ConfigDiff}
    (hload : Dataset.load st ds.id = .ok old_ds)
    (hoc : old_ds.config = some oldc) (hnc : ds.config = some newc)
    (hcc : compare_configs oldc newc = some cd) :
    SMapi.update ctx st ds priority = ([], .error SmError.AttributeError) := by
  unfold SMapi.update
  simp only [hload]
  simp only [hoc, hnc]
  simp only [hcc]
  simp only [SMapi.dataset_getattr_meta]

/-- C1 (evaluation of the code at a failing input): with the old dataset
stored and carrying a config and metadata identical to those of the update,
the queued dispatcher function `update` raises AttributeError — `Dataset` defines
`metadata` and no attribute `meta`, yet line 220 reads `old_ds.meta` — so
the decision table is never reached and the call errors with an empty
effect trace where the claim predicts a logged no-op. -/
theorem api_update_attribute_error :
    SMapi.update ⟨queueMode, true⟩
      [("d1", { id := some "d1", name := some "n", input_path := some "p",
                upload_dt := some "t", metadata := some (.dict []),
                config := some [("instr", PyVal.str "FTICR")],
                status := some DatasetStatus.FINISHED, is_public := some true,
                mol_dbs := some ["HMDB"] })]
      { id := some "d1", name := some "n", input_path := some "p",
        upload_dt := some "t", metadata := some (.dict []),
        config := some [("instr", PyVal.str "FTICR")],
        status := some DatasetStatus.FINISHED, is_public := some true,
        mol_dbs := some ["HMDB"] } 0
    = ([], Except.error SmError.AttributeError) := by
  have hw : ConfigWF [("instr", PyVal.str "FTICR")] = true := by
    simp [ConfigWF, WFPy, WFEntries, WFList, keysNodup, pyLookup, databasesKey]
  exact update_attr_error_general rfl rfl rfl (compare_configs_self_aux hw)

/-- Witness for C5: the concrete message `delete` publishes for `dsW` goes
out at priority 2, which is HIGH. -/
theorem api_delete_priority_high_witness : (2 : Nat) = DatasetActionPriority.HIGH :=
  api_delete_priority_high true [] dsW true msgW 2
    (by
      have ht : (SMapi.delete ⟨queueMode, true⟩ [] dsW true).1 =
          [Effect.dbWrite true (some "d1") (some DatasetStatus.QUEUED),
           Effect.esSync (some "d1"),
           Effect.statusPublish (some "d1") (some DatasetStatus.QUEUED),
           Effect.queuePublish msgW 2] := rfl
      rw [ht]
      exact List.mem_cons_of_mem _ (List.mem_cons_of_mem _
        (List.mem_cons_of_mem _ (List.mem_cons_self _ _))))

/-- Witness for C9: deleting `dsW` gives the same result whatever the
`del_raw_data` flag, and the published message has no `del_raw_data` key. -/
theorem api_delete_omits_del_raw_data_witness :
    SMapi.delete ⟨queueMode, true⟩ [] dsW true
        = SMapi.delete ⟨queueMode, true⟩ [] dsW false ∧
      pyLookup delRawDataKey msgW = Option.none :=
  ⟨(api_delete_omits_del_raw_data true [] dsW true false).1,
   (api_delete_omits_del_raw_data true [] dsW true false).2 msgW 2
     (by
       have ht : (SMapi.delete ⟨queueMode, true⟩ [] dsW true).1 =
           [Effect.dbWrite true (some "d1") (some DatasetStatus.QUEUED),
            Effect.esSync (some "d1"),
            Effect.statusPublish (some "d1") (some DatasetStatus.QUEUED),
            Effect.queuePublish msgW 2] := rfl
       rw [ht]
       exact List.mem_cons_of_mem _ (List.mem_cons_of_mem _
         (List.mem_cons_of_mem _ (List.mem_cons_self _ _))))⟩

/-- Witness for C4: adding `dsW` over its stored id without `del_first`
fails with DSIDExists, while adding it to empty storage queues it. -/
theorem api_add_spec_witness :
    SMapi.add ⟨queueMode, true⟩ [("d1", dsW)] dsW false 0
        = ([], Except.error SmError.DSIDExists) ∧
      (SMapi.add ⟨queueMode, true⟩ [] dsW false 0).2
        = Except.ok { dsW with status := some DatasetStatus.QUEUED } :=
  ⟨(api_add_spec true [("d1", dsW)] dsW false 0).1 ⟨rfl, rfl⟩,
   ((api_add_spec true [] dsW false 0).2
       [(dsIdKey, .str "d1"), (dsNameKey, .str "n"), (inputPathKey, .str "p")]
       (by
         rintro ⟨h1, h2⟩
         rw [show Dataset.is_stored [] dsW = false from rfl] at h2
         exact Bool.noConfusion h2)
       rfl rfl).1⟩
